import Mathlib

/-!
Verification development for the GA4 analytics dashboard (`src/streamlit_app.py`).

The Python source is shallowly embedded over `List Char` (Python `str`) and `ℚ`
(Python numeric values; `float` strings are modelled as exact decimal rationals,
binary floating-point rounding is not modelled).  Fallible Python code (code
that can raise `ValueError` / `IndexError`) is embedded with `Option`.

The embedding of `urllib.parse` (`urlparse`, `parse_qsl`, `urlencode`,
`urlunparse`, `quote_plus`, `unquote`) follows the CPython implementation:
only the parts exercised by this program are embedded, with these documented
simplifications: NFKC normalization in `_checknetloc` is treated as the
identity (it is the identity on every character set appearing here), and
Unicode lowercasing/whitespace are restricted to the character tables written
out below.
-/

namespace GA4

/-- The invisible characters removed by `clean_line` (`INVISIBLE` in the source):
BOM, zero-width space, word joiner, no-break space. -/
def isInvisible (c : Char) : Bool :=
  let n := c.toNat
  decide (n = 0xFEFF ∨ n = 0x200B ∨ n = 0x2060 ∨ n = 0xA0)

/-- Python `str` whitespace (the set stripped by `str.strip()`). -/
def pyIsSpace (c : Char) : Bool :=
  let n := c.toNat
  decide ((9 ≤ n ∧ n ≤ 13) ∨ n = 32 ∨ (28 ≤ n ∧ n ≤ 31) ∨ n = 0x85 ∨ n = 0xA0 ∨
    n = 0x1680 ∨ (0x2000 ≤ n ∧ n ≤ 0x200A) ∨ n = 0x2028 ∨ n = 0x2029 ∨
    n = 0x202F ∨ n = 0x205F ∨ n = 0x3000)

/-- Right strip: remove trailing characters satisfying `p`. -/
def rstr (p : Char → Bool) (l : List Char) : List Char :=
  (l.reverse.dropWhile p).reverse

/-- Python `str.strip()`: remove leading and trailing whitespace. -/
def stripL (l : List Char) : List Char :=
  rstr pyIsSpace (l.dropWhile pyIsSpace)

/-- `clean_line` over `List Char`: remove all invisible characters
(`str.replace` of each with the empty string), then `str.strip()`. -/
def cleanLineL (l : List Char) : List Char :=
  stripL (l.filter (fun c => !(isInvisible c)))

/-- `clean_line` from the source (string level). -/
def clean_line (s : String) : String :=
  ⟨cleanLineL s.data⟩

/-- `a.isPrefixOf b` written out for `List Char` (Python `str.startswith`). -/
def hasPfx : List Char → List Char → Bool
  | [], _ => true
  | _ :: _, [] => false
  | a :: as_, b :: bs => a = b && hasPfx as_ bs

/-- Substring occurrence (Python `in` for strings). -/
def occursSub (pat : List Char) : List Char → Bool
  | [] => pat.isEmpty
  | c :: rest => hasPfx pat (c :: rest) || occursSub pat rest

-- Basic lemmas about the cleaning layer --------------------------------------

theorem mem_dropWhileL {p : Char → Bool} {c : Char} :
    ∀ {l : List Char}, c ∈ l.dropWhile p → c ∈ l := by
  intro l h
  induction l with
  | nil => simp [List.dropWhile] at h
  | cons a t ih =>
    rw [List.dropWhile] at h
    by_cases hp : p a
    · simp [hp] at h
      exact List.mem_cons_of_mem a (ih h)
    · simpa [hp] using h

theorem head_dropWhileL {p : Char → Bool} {c : Char} :
    ∀ {l : List Char}, (l.dropWhile p).head? = some c → p c = false := by
  intro l h
  induction l with
  | nil => simp [List.dropWhile] at h
  | cons a t ih =>
    rw [List.dropWhile] at h
    by_cases hp : p a
    · simp only [hp, if_true] at h
      exact ih h
    · simp only [hp] at h
      simp only [Bool.false_eq_true, if_false, List.head?_cons, Option.some.injEq] at h
      subst h
      simpa using hp

theorem dropWhile_idemL (p : Char → Bool) (l : List Char) :
    (l.dropWhile p).dropWhile p = l.dropWhile p := by
  induction l with
  | nil => simp
  | cons a t ih =>
    rw [List.dropWhile]
    by_cases hp : p a
    · simpa [hp] using ih
    · simp [List.dropWhile, hp]

theorem dropWhile_noop_of_head {p : Char → Bool} {l : List Char}
    (h : ∀ c, l.head? = some c → p c = false) : l.dropWhile p = l := by
  cases l with
  | nil => simp
  | cons a t => simp [List.dropWhile, h a rfl]

theorem mem_rstr {p : Char → Bool} {c : Char} {l : List Char}
    (h : c ∈ rstr p l) : c ∈ l := by
  unfold rstr at h
  rw [List.mem_reverse] at h
  have := mem_dropWhileL h
  simpa using this

theorem rstr_idem (p : Char → Bool) (l : List Char) :
    rstr p (rstr p l) = rstr p l := by
  unfold rstr
  rw [List.reverse_reverse, dropWhile_idemL]

/-- Appending one element to a list and right-dropping: either the right drop
swallows everything, or the appended element survives at the end. -/
theorem dropWhile_append_single (p : Char → Bool) (xs : List Char) (c : Char) :
    (xs ++ [c]).dropWhile p =
      if (xs.dropWhile p).isEmpty then [c].dropWhile p else xs.dropWhile p ++ [c] := by
  induction xs with
  | nil => simp
  | cons a t ih =>
    by_cases hp : p a
    · simpa [List.dropWhile, hp] using ih
    · simp [List.dropWhile, hp]

theorem rstr_cons (p : Char → Bool) (c : Char) (l : List Char) :
    rstr p (c :: l) =
      if p c = true ∧ rstr p l = [] then [] else c :: rstr p l := by
  unfold rstr
  rw [List.reverse_cons, dropWhile_append_single]
  by_cases hp : p c
  · by_cases hz : (l.reverse.dropWhile p).isEmpty
    · rw [if_pos hz]
      simp_all [List.isEmpty_iff, List.dropWhile, hp]
    · rw [if_neg hz]
      simp only [List.isEmpty_iff] at hz
      have : ¬ (p c = true ∧ (l.reverse.dropWhile p).reverse = []) := by
        intro hcon
        exact hz (by simpa using hcon.2)
      rw [if_neg this, List.reverse_append]
      simp
  · by_cases hz : (l.reverse.dropWhile p).isEmpty
    · rw [if_pos hz]
      simp only [List.isEmpty_iff] at hz
      have : ¬ (p c = true ∧ (l.reverse.dropWhile p).reverse = []) := by
        intro hcon; exact hp hcon.1
      rw [if_neg this]
      simp [List.dropWhile, hp, hz]
    · rw [if_neg hz]
      have : ¬ (p c = true ∧ (l.reverse.dropWhile p).reverse = []) := by
        intro hcon; exact hp hcon.1
      rw [if_neg this, List.reverse_append]
      simp

theorem rstr_cons_of_not (p : Char → Bool) {c : Char} (hc : p c = false)
    (l : List Char) : rstr p (c :: l) = c :: rstr p l := by
  rw [rstr_cons]
  simp [hc]

theorem stripL_idem (l : List Char) : stripL (stripL l) = stripL l := by
  unfold stripL
  have hdrop : (rstr pyIsSpace (l.dropWhile pyIsSpace)).dropWhile pyIsSpace =
      rstr pyIsSpace (l.dropWhile pyIsSpace) := by
    apply dropWhile_noop_of_head
    intro c hc
    cases hl : l.dropWhile pyIsSpace with
    | nil =>
      rw [hl] at hc
      simp [rstr] at hc
    | cons a t =>
      rw [hl] at hc
      rw [rstr_cons] at hc
      by_cases hsplit : pyIsSpace a = true ∧ rstr pyIsSpace t = []
      · rw [if_pos hsplit] at hc
        simp at hc
      · rw [if_neg hsplit] at hc
        simp only [List.head?_cons, Option.some.injEq] at hc
        subst hc
        apply head_dropWhileL (p := pyIsSpace) (l := l)
        rw [hl]; rfl
  rw [hdrop, rstr_idem]

theorem mem_stripL {c : Char} {l : List Char} (h : c ∈ stripL l) : c ∈ l :=
  mem_dropWhileL (mem_rstr h)

theorem filter_stripL_filter (q : Char → Bool) (l : List Char) :
    (stripL (l.filter q)).filter q = stripL (l.filter q) := by
  rw [List.filter_eq_self]
  intro a ha
  exact (List.mem_filter.mp (mem_stripL ha)).2

theorem cleanLineL_idem (l : List Char) : cleanLineL (cleanLineL l) = cleanLineL l := by
  unfold cleanLineL
  rw [filter_stripL_filter, stripL_idem]

-- urllib.parse embedding ------------------------------------------------------

/-- WHATWG C0-control-or-space characters, left-stripped by CPython `urlsplit`. -/
def isC0Space (c : Char) : Bool :=
  decide (c.toNat ≤ 0x20)

/-- Tab, CR and LF, removed everywhere by CPython `urlsplit`
(`_UNSAFE_URL_BYTES_TO_REMOVE`). -/
def isUnsafeUrlByte (c : Char) : Bool :=
  c = '\t' || c = '\r' || c = '\n'

/-- `scheme_chars` from CPython `urllib.parse`. -/
def isSchemeChar (c : Char) : Bool :=
  c.isAlpha || c.isDigit || c = '+' || c = '-' || c = '.'

/-- Result of `urlsplit` (the fields of CPython's `SplitResult`). -/
structure SplitResult where
  scheme : List Char
  netloc : List Char
  path : List Char
  query : List Char
  fragment : List Char
  deriving Repr, DecidableEq

/-- The preliminary cleaning of CPython `urlsplit`: left-strip
C0-control-or-space characters, remove tab/CR/LF everywhere. -/
def urlPreclean (url0 : List Char) : List Char :=
  (url0.dropWhile isC0Space).filter (fun c => !(isUnsafeUrlByte c))

/-- Scheme detection of CPython `urlsplit`: the characters before the first
`':'` form the scheme when there is at least one, the first is an ASCII
letter, and all are scheme characters; the scheme is lowercased. -/
def schemeSplitL (l : List Char) : List Char × List Char :=
  let headAsciiAlpha : Bool :=
    match l.head? with
    | some c => decide (c.toNat < 128) && c.isAlpha
    | none => false
  match l.findIdx? (· = ':') with
  | some i =>
    if 0 < i ∧ headAsciiAlpha = true ∧ (l.take i).all isSchemeChar then
      ((l.take i).map Char.toLower, l.drop (i + 1))
    else ([], l)
  | none => ([], l)

/-- Netloc detection of CPython `urlsplit` (`_splitnetloc`): when the
remainder starts with `'//'`, the netloc runs to the first `'/'`, `'?'` or
`'#'`. -/
def netlocSplitL (rest : List Char) : List Char × List Char :=
  if hasPfx ['/', '/'] rest then
    ((rest.drop 2).takeWhile (fun c => !(c = '/' || c = '?' || c = '#')),
     (rest.drop 2).dropWhile (fun c => !(c = '/' || c = '?' || c = '#')))
  else ([], rest)

/-- The splitting work of CPython `urlsplit`: scheme, netloc, then the
fragment after the first `'#'`, then the query after the first `'?'` of what
precedes the fragment. -/
def urlsplitParts (url0 : List Char) : SplitResult :=
  let s := schemeSplitL (urlPreclean url0)
  let n := netlocSplitL s.2
  let beforeFrag := n.2.takeWhile (· ≠ '#')
  { scheme := s.1
    netloc := n.1
    path := beforeFrag.takeWhile (· ≠ '?')
    query := (beforeFrag.dropWhile (· ≠ '?')).drop 1
    fragment := (n.2.dropWhile (· ≠ '#')).drop 1 }

/-- CPython `urlsplit` raises `ValueError` on a netloc with unbalanced square
brackets (the check depends only on the netloc, so performing it after the
splitting is equivalent to CPython's order). -/
def netlocBracketsBad (netloc : List Char) : Bool :=
  ('[' ∈ netloc && !(']' ∈ netloc)) || (']' ∈ netloc && !('[' ∈ netloc))

/-- CPython `urllib.parse.urlsplit` (default arguments: empty scheme,
`allow_fragments=True`).  Returns `none` where CPython raises `ValueError`
(unbalanced brackets in the netloc).  The `_checknetloc` NFKC check is treated
as the identity and never fails, per the header note. -/
def urlsplitL (url0 : List Char) : Option SplitResult :=
  if netlocBracketsBad (urlsplitParts url0).netloc then none
  else some (urlsplitParts url0)

/-- Result of `urlparse` (`ParseResult`): `urlsplit` plus the `params`
component split off the last path segment. -/
structure ParseResult where
  scheme : List Char
  netloc : List Char
  path : List Char
  params : List Char
  query : List Char
  fragment : List Char
  deriving Repr, DecidableEq

/-- Where CPython `_splitparams` starts looking for `';'`: at the last `'/'`
of the path if there is one (`url.find(';', url.rfind('/'))`). -/
def splitparamsStart (p : List Char) : Nat :=
  if '/' ∈ p then
    match p.reverse.findIdx? (· = '/') with
    | some k => p.length - 1 - k
    | none => 0
  else 0

/-- CPython `_splitparams`: split `;params` off the last segment of the path. -/
def splitparamsL (p : List Char) : List Char × List Char :=
  match ((p.drop (splitparamsStart p)).findIdx? (· = ';')).map (· + splitparamsStart p) with
  | some i => (p.take i, p.drop (i + 1))
  | none => (p, [])

/-- CPython `urllib.parse.urlparse` (default arguments). -/
def urlparseL (url : List Char) : Option ParseResult :=
  (urlsplitL url).map fun r =>
    let pp := splitparamsL r.path
    ⟨r.scheme, r.netloc, pp.1, pp.2, r.query, r.fragment⟩

-- percent decoding / encoding -------------------------------------------------

/-- Hexadecimal digit value, if any. -/
def hexVal (c : Char) : Option Nat :=
  if '0' ≤ c ∧ c ≤ '9' then some (c.toNat - '0'.toNat)
  else if 'a' ≤ c ∧ c ≤ 'f' then some (c.toNat - 'a'.toNat + 10)
  else if 'A' ≤ c ∧ c ≤ 'F' then some (c.toNat - 'A'.toNat + 10)
  else none

/-- Token stream used by the `unquote` embedding: ASCII characters and decoded
`%XX` escapes become bytes, non-ASCII characters pass through. -/
inductive UTok where
  | byte (b : Nat)
  | chr (c : Char)
  deriving Repr, DecidableEq

/-- Tokenize for `unquote`: a `%` followed by two hex digits is a byte; other
ASCII characters are their own byte; non-ASCII characters pass through as
characters (CPython decodes percent escapes per maximal ASCII run).  One unit
of fuel is spent per consumed character, so `l.length` fuel always suffices;
the fuel only makes the recursion structural. -/
def uqTokensF : Nat → List Char → List UTok
  | 0, _ => []
  | _ + 1, [] => []
  | fuel + 1, c :: rest =>
    if c = '%' then
      match rest with
      | a :: b :: r2 =>
        (match hexVal a, hexVal b with
         | some x, some y => UTok.byte (16 * x + y) :: uqTokensF fuel r2
         | _, _ => UTok.byte '%'.toNat :: uqTokensF fuel (a :: b :: r2))
      | _ => UTok.byte '%'.toNat :: uqTokensF fuel rest
    else (if c.toNat < 128 then UTok.byte c.toNat else UTok.chr c) :: uqTokensF fuel rest

def uqTokens (l : List Char) : List UTok :=
  uqTokensF l.length l

/-- UTF-8 decoding step with fuel (one unit of fuel per consumed byte, so
`bs.length` is always enough; the fuel only makes the recursion structural).
Decodes with `errors='replace'` (U+FFFD on malformed input, maximal-subpart
resynchronization), as CPython `bytes.decode('utf-8', 'replace')`. -/
def decodeUtf8F : Nat → List Nat → List Char
  | 0, _ => []
  | _ + 1, [] => []
  | fuel + 1, b :: rest =>
    if b < 0x80 then
      Char.ofNat b :: decodeUtf8F fuel rest
    else if 0xC2 ≤ b ∧ b ≤ 0xDF then
      match rest with
      | c1 :: r1 =>
        if 0x80 ≤ c1 ∧ c1 ≤ 0xBF then
          Char.ofNat ((b - 0xC0) * 64 + (c1 - 0x80)) :: decodeUtf8F fuel r1
        else Char.ofNat 0xFFFD :: decodeUtf8F fuel (c1 :: r1)
      | [] => [Char.ofNat 0xFFFD]
    else if 0xE0 ≤ b ∧ b ≤ 0xEF then
      match rest with
      | c1 :: r1 =>
        if (0x80 ≤ c1 ∧ c1 ≤ 0xBF) ∧ (b = 0xE0 → 0xA0 ≤ c1) ∧ (b = 0xED → c1 ≤ 0x9F) then
          match r1 with
          | c2 :: r2 =>
            if 0x80 ≤ c2 ∧ c2 ≤ 0xBF then
              Char.ofNat ((b - 0xE0) * 4096 + (c1 - 0x80) * 64 + (c2 - 0x80)) ::
                decodeUtf8F fuel r2
            else Char.ofNat 0xFFFD :: decodeUtf8F fuel (c2 :: r2)
          | [] => [Char.ofNat 0xFFFD]
        else Char.ofNat 0xFFFD :: decodeUtf8F fuel (c1 :: r1)
      | [] => [Char.ofNat 0xFFFD]
    else if 0xF0 ≤ b ∧ b ≤ 0xF4 then
      match rest with
      | c1 :: r1 =>
        if (0x80 ≤ c1 ∧ c1 ≤ 0xBF) ∧ (b = 0xF0 → 0x90 ≤ c1) ∧ (b = 0xF4 → c1 ≤ 0x8F) then
          match r1 with
          | c2 :: r2 =>
            if 0x80 ≤ c2 ∧ c2 ≤ 0xBF then
              match r2 with
              | c3 :: r3 =>
                if 0x80 ≤ c3 ∧ c3 ≤ 0xBF then
                  Char.ofNat ((b - 0xF0) * 262144 + (c1 - 0x80) * 4096 +
                    (c2 - 0x80) * 64 + (c3 - 0x80)) :: decodeUtf8F fuel r3
                else Char.ofNat 0xFFFD :: decodeUtf8F fuel (c3 :: r3)
              | [] => [Char.ofNat 0xFFFD]
            else Char.ofNat 0xFFFD :: decodeUtf8F fuel (c2 :: r2)
          | [] => [Char.ofNat 0xFFFD]
        else Char.ofNat 0xFFFD :: decodeUtf8F fuel (c1 :: r1)
      | [] => [Char.ofNat 0xFFFD]
    else Char.ofNat 0xFFFD :: decodeUtf8F fuel rest

/-- UTF-8 decoding of a byte sequence with `errors='replace'`. -/
def decodeUtf8R (bs : List Nat) : List Char :=
  decodeUtf8F bs.length bs

theorem length_dropWhile_leL {α : Type} (p : α → Bool) (l : List α) :
    (l.dropWhile p).length ≤ l.length := by
  induction l with
  | nil => simp
  | cons a t ih =>
    rw [List.dropWhile]
    by_cases hp : p a
    · simp only [hp, if_true]
      exact Nat.le_succ_of_le ih
    · simp [hp]

/-- Collapse the token stream: maximal byte runs are UTF-8 decoded with
replacement, other characters pass through.  `buf` accumulates the current
byte run in reverse. -/
def uqDecodeGo (buf : List Nat) : List UTok → List Char
  | [] => decodeUtf8R buf.reverse
  | .byte b :: rest => uqDecodeGo (b :: buf) rest
  | .chr c :: rest => decodeUtf8R buf.reverse ++ c :: uqDecodeGo [] rest

def uqDecode (toks : List UTok) : List Char :=
  uqDecodeGo [] toks

/-- CPython `urllib.parse.unquote` (utf-8, `errors='replace'`). -/
def unquoteL (l : List Char) : List Char :=
  uqDecode (uqTokens l)

/-- UTF-8 encoding of one character. -/
def utf8Bytes (c : Char) : List Nat :=
  let n := c.toNat
  if n < 0x80 then [n]
  else if n < 0x800 then [0xC0 + n / 64, 0x80 + n % 64]
  else if n < 0x10000 then [0xE0 + n / 4096, 0x80 + (n / 64) % 64, 0x80 + n % 64]
  else [0xF0 + n / 262144, 0x80 + (n / 4096) % 64, 0x80 + (n / 64) % 64, 0x80 + n % 64]

def hexDigitU (n : Nat) : Char :=
  if n < 10 then Char.ofNat ('0'.toNat + n) else Char.ofNat ('A'.toNat + n - 10)

/-- The characters never quoted by CPython `quote` (`_ALWAYS_SAFE`). -/
def isAlwaysSafe (c : Char) : Bool :=
  c.isAlpha || c.isDigit || c = '_' || c = '.' || c = '-' || c = '~'

/-- CPython `urllib.parse.quote` with the given extra safe characters. -/
def quoteL (safe : List Char) (l : List Char) : List Char :=
  (l.map (fun c =>
    if isAlwaysSafe c || safe.contains c then [c]
    else ((utf8Bytes c).map
      (fun b => ['%', hexDigitU (b / 16), hexDigitU (b % 16)])).flatten)).flatten

/-- CPython `urllib.parse.quote_plus` with `safe=''`. -/
def quotePlusL (l : List Char) : List Char :=
  if ' ' ∈ l then (quoteL [' '] l).map (fun c => if c = ' ' then '+' else c)
  else quoteL [] l

-- parse_qsl / urlencode -------------------------------------------------------

/-- Split a list on every occurrence of `sep` (Python `str.split(sep)`),
keeping empty pieces. -/
def splitSep (sep : Char) : List Char → List (List Char)
  | [] => [[]]
  | c :: rest =>
    let r := splitSep sep rest
    if c = sep then [] :: r
    else match r with
      | h :: t => (c :: h) :: t
      | [] => [[c]]

/-- Python `str.replace('+', ' ')`. -/
def plusToSpace (l : List Char) : List Char :=
  l.map (fun c => if c = '+' then ' ' else c)

/-- CPython `urllib.parse.parse_qsl` with `keep_blank_values=True` (default
separator `'&'`, no strict parsing): empty chunks are skipped, a chunk without
`'='` keeps a blank value, names and values are `'+'`-decoded then unquoted. -/
def parse_qsl (q : List Char) : List (List Char × List Char) :=
  if q = [] then []
  else
    (splitSep '&' q).foldr (fun part acc =>
      if part = [] then acc
      else
        let k := part.takeWhile (· ≠ '=')
        let hasEq := '=' ∈ part
        let v := if hasEq then (part.dropWhile (· ≠ '=')).drop 1 else []
        (unquoteL (plusToSpace k), unquoteL (plusToSpace v)) :: acc) []

/-- CPython `urllib.parse.urlencode` with `doseq=True` on a list of string
pairs (each value quoted with `quote_plus`, pairs joined with `'&'`). -/
def urlencodeL (q : List (List Char × List Char)) : List Char :=
  List.intercalate ['&'] (q.map (fun kv => quotePlusL kv.1 ++ '=' :: quotePlusL kv.2))

-- urlunsplit / urlunparse -----------------------------------------------------

/-- CPython `urllib.parse.urlunsplit`. -/
def urlunsplitL (scheme netloc url query fragment : List Char) : List Char :=
  let url1 :=
    if netloc ≠ [] ∨ (url ≠ [] ∧ hasPfx ['/', '/'] url) then
      let u := if url ≠ [] ∧ ¬ hasPfx ['/'] url then '/' :: url else url
      '/' :: '/' :: (netloc ++ u)
    else url
  let url2 := if scheme ≠ [] then scheme ++ ':' :: url1 else url1
  let url3 := if query ≠ [] then url2 ++ '?' :: query else url2
  if fragment ≠ [] then url3 ++ '#' :: fragment else url3

/-- CPython `urllib.parse.urlunparse`. -/
def urlunparseL (scheme netloc url params query fragment : List Char) : List Char :=
  urlunsplitL scheme netloc (if params ≠ [] then url ++ ';' :: params else url)
    query fragment

-- The path normalizer from the source ----------------------------------------

/-- `strip_utm_and_fragment` over `List Char`: parse the URL, drop every query
parameter whose name lowercases to a `utm_`-prefixed string, reassemble with an
empty fragment.  `none` where `urlparse` raises. -/
def stripUtmL (raw : List Char) : Option (List Char) :=
  (urlparseL raw).map fun p =>
    let q := (parse_qsl p.query).filter
      (fun kv => !(hasPfx ['u', 't', 'm', '_'] (kv.1.map Char.toLower)))
    urlunparseL p.scheme p.netloc p.path p.params (urlencodeL q) []

/-- `strip_utm_and_fragment` from the source (string level). -/
def strip_utm_and_fragment (s : String) : Option String :=
  (stripUtmL s.data).map fun l => (⟨l⟩ : String)

/-- The branching of `normalize_input` on the cleaned line `s`: empty input
maps to empty output; `http`-prefixed input is URL-parsed (tracking
parameters and fragment removed) and reduced to its path (or `/`); other
input gets a leading `'/'` if it lacks one. -/
def normalizeCore (s : List Char) : Option (List Char) :=
  if s = [] then some []
  else if hasPfx ['h', 't', 't', 'p'] s then
    (stripUtmL s).bind fun s2 =>
      (urlparseL s2).map fun p => if p.path = [] then ['/'] else p.path
  else if hasPfx ['/'] s then some s
  else some ('/' :: s)

/-- `normalize_input` over `List Char`: `clean_line`, then branch. -/
def normalizeInputL (raw : List Char) : Option (List Char) :=
  normalizeCore (cleanLineL raw)

/-- `normalize_input` from the source (string level). -/
def normalize_input (s : String) : Option String :=
  (normalizeInputL s.data).map fun l => (⟨l⟩ : String)

example : normalize_input "" = some "" := by decide
example : normalize_input "   " = some "" := by decide
example : normalize_input "faq" = some "/faq" := by decide
example : normalize_input "/blog" = some "/blog" := by decide
example : normalize_input "http://a/b?utm_source=1" = some "/b" := by decide
example : normalize_input "http://a/b?q=2&utm_medium=m#frag" = some "/b" := by decide
example : normalize_input "http: x" = some " x" := by decide
example : normalize_input " x" = some "/x" := by decide
example : normalize_input "/a?utm_source=1" = some "/a?utm_source=1" := by decide
example : normalize_input "http://example.com" = some "/" := by decide
example : strip_utm_and_fragment "http://a/b?q=2&utm_medium=m#frag" = some "http://a/b?q=2" := by decide

-- Python numeric parsing ------------------------------------------------------

/-- Digit runs with single underscores between digits (Python numeric literal
syntax accepted by `float()` and `int()`).  Returns the accumulated value, the
number of digits read, and the unconsumed remainder; underscores not between
two digits are left unconsumed (making the whole parse fail).  One unit of
fuel per consumed character, so `length` fuel always suffices. -/
def digitsUF : Nat → ℕ → ℕ → List Char → ℕ × ℕ × List Char
  | 0, acc, cnt, l => (acc, cnt, l)
  | _ + 1, acc, cnt, [] => (acc, cnt, [])
  | fuel + 1, acc, cnt, c :: rest =>
    if c.isDigit then digitsUF fuel (acc * 10 + (c.toNat - 48)) (cnt + 1) rest
    else if c = '_' then
      match rest with
      | d :: r2 =>
        if 0 < cnt ∧ d.isDigit then digitsUF fuel (acc * 10 + (d.toNat - 48)) (cnt + 1) r2
        else (acc, cnt, c :: d :: r2)
      | [] => (acc, cnt, [c])
    else (acc, cnt, c :: rest)

def digitsU (l : List Char) : ℕ × ℕ × List Char :=
  digitsUF l.length 0 0 l

/-- Optional leading sign. -/
def signSplit : List Char → ℤ × List Char
  | '+' :: rest => (1, rest)
  | '-' :: rest => (-1, rest)
  | l => (1, l)

/-- Parse stage of Python `float(str)` on decimal notation: optional
whitespace and sign, integer and/or fractional digits with underscores,
optional exponent.  Returns `(sign, mantissa digits as an integer,
number of fractional digits, exponent)`; `none` where `float()` raises
`ValueError`.  (`inf`/`nan` spellings are not modelled; no input of this
development uses them.) -/
def pyFloatParse (l0 : List Char) : Option (ℤ × ℕ × ℕ × ℤ) :=
  let l := stripL l0
  let sl := signSplit l
  let ip := digitsU sl.2
  let intDigits := ip.2.1
  let afterInt := ip.2.2
  let fracState : ℕ × ℕ × List Char :=
    match afterInt with
    | '.' :: r2 => digitsU r2
    | _ => (0, 0, afterInt)
  let fracVal := fracState.1
  let fracDigits := fracState.2.1
  let afterFrac := fracState.2.2
  if intDigits = 0 ∧ fracDigits = 0 then none
  else
    let mant := ip.1 * 10 ^ fracDigits + fracVal
    match afterFrac with
    | 'e' :: r3 =>
      let se := signSplit r3
      let ep := digitsU se.2
      if ep.2.1 = 0 ∨ ep.2.2 ≠ [] then none
      else some (sl.1, mant, fracDigits, se.1 * ep.1)
    | 'E' :: r3 =>
      let se := signSplit r3
      let ep := digitsU se.2
      if ep.2.1 = 0 ∨ ep.2.2 ≠ [] then none
      else some (sl.1, mant, fracDigits, se.1 * ep.1)
    | [] => some (sl.1, mant, fracDigits, 0)
    | _ => none

/-- Exact rational value of a parsed decimal
`(sign, mantissa, fractional digits, exponent)`. -/
def decValQ (s : ℤ × ℕ × ℕ × ℤ) : ℚ :=
  let base : ℚ := (s.1 : ℚ) * (s.2.1 : ℚ) / 10 ^ s.2.2.1
  if 0 ≤ s.2.2.2 then base * 10 ^ s.2.2.2.toNat else base / 10 ^ (- s.2.2.2).toNat

/-- Python `float(str)` as an exact rational (see `pyFloatParse`). -/
def pyFloatL (l : List Char) : Option ℚ :=
  (pyFloatParse l).map decValQ

def pyFloat (s : String) : Option ℚ :=
  pyFloatL s.data

/-- `float(v or 0)` for a protobuf string metric value `v`: the empty string is
falsy, so it is replaced by `0` before parsing. -/
def floatOrZero (s : String) : Option ℚ :=
  if s = "" then some 0 else pyFloat s

/-- Python `int(float_value)`: truncation toward zero. -/
def truncQ (q : ℚ) : ℤ :=
  Int.tdiv q.num (q.den : ℤ)

/-- Python `int(str)`: optional whitespace and sign, decimal digits with
underscores.  `none` where `int()` raises `ValueError`. -/
def pyIntL (l0 : List Char) : Option ℤ :=
  let l := stripL l0
  let sl := signSplit l
  let ip := digitsU sl.2
  if ip.2.1 = 0 ∨ ip.2.2 ≠ [] then none
  else some (sl.1 * ip.1)

def pyInt (s : String) : Option ℤ :=
  pyIntL s.data

/-- Round half to even (Python `round`), as an exact operation on ℚ. -/
def roundHalfEven (q : ℚ) : ℤ :=
  let f := Int.floor q
  let r := q - f
  if r < 1 / 2 then f
  else if 1 / 2 < r then f + 1
  else if Even f then f else f + 1

/-- Python `round(x, 1)` as an exact operation on ℚ. -/
def pyRound1 (q : ℚ) : ℚ :=
  (roundHalfEven (10 * q) : ℚ) / 10

example : pyFloatParse "80".data = some (1, 80, 0, 0) := by decide
example : pyFloatParse "42.0".data = some (1, 420, 1, 0) := by decide
example : pyFloatParse " -1.5e2 ".data = some (-1, 15, 1, 2) := by decide
example : pyFloatParse "abc".data = none := by decide
example : pyFloatParse "1_0".data = some (1, 10, 0, 0) := by decide
example : pyFloatParse "1_".data = none := by decide
example : pyFloat "42.0" = some 42 := by
  have h : pyFloatParse "42.0".data = some (1, 420, 1, 0) := by decide
  rw [pyFloat, pyFloatL, h]
  norm_num [decValQ]
example : pyInt "12" = some 12 := by decide
example : pyInt "12.5" = none := by decide
example : truncQ (-7 / 2) = -3 := by
  norm_num [truncQ]
  decide
example : truncQ (80 / 4) = 20 := by norm_num [truncQ, Int.tdiv]
example : pyRound1 (25 / 100) = 2 / 10 := by norm_num [pyRound1, roundHalfEven]
example : pyRound1 (42 : ℚ) = 42 := by norm_num [pyRound1, roundHalfEven]

-- The response shaper from the source -----------------------------------------

/-- One row of a `RunReport` response: parallel lists of dimension value
strings and metric value strings (`r.dimension_values[i].value`,
`r.metric_values[i].value`). -/
structure ReportRow where
  dimensionValues : List String
  metricValues : List String
  deriving Repr, DecidableEq

/-- One display record produced by the row-shaping loop of
`fetch_by_paths_cached` (lines 125-136); the loop of
`fetch_top_materials_cached` (lines 174-186) is identical except that the
second dimension is labelled "Screen Class" instead of "Title". -/
structure DisplayRecord where
  path : String
  title : String
  views : ℤ
  uniqueUsers : ℤ
  avgEngagementTime : ℚ
  deriving Repr, DecidableEq

/-- The body of the row-shaping loop:
`views = int(float(mv[0] or 0))`, `users = int(float(mv[1] or 0))`,
`eng = float(mv[2] or 0)`, derived field `round(eng / max(users, 1), 1)`.
`none` where the Python loop raises (`IndexError` / `ValueError`). -/
def shapeRow (r : ReportRow) : Option DisplayRecord :=
  (r.metricValues.get? 0).bind fun m0 =>
  (floatOrZero m0).bind fun views =>
  (r.metricValues.get? 1).bind fun m1 =>
  (floatOrZero m1).bind fun users =>
  (r.metricValues.get? 2).bind fun m2 =>
  (floatOrZero m2).bind fun eng =>
  (r.dimensionValues.get? 0).bind fun d0 =>
  (r.dimensionValues.get? 1).bind fun d1 =>
  some { path := d0, title := d1, views := truncQ views, uniqueUsers := truncQ users,
         avgEngagementTime := pyRound1 (eng / ((max (truncQ users) 1 : ℤ) : ℚ)) }

/-- The whole shaping loop: all response rows, in order. -/
def shapeRows (rows : List ReportRow) : Option (List DisplayRecord) :=
  rows.mapM shapeRow

example : shapeRows [] = some [] := by rfl
example : shapeRow ⟨["/blog/post-1", "Post"], ["10", "4", "80"]⟩ =
    some ⟨"/blog/post-1", "Post", 10, 4, 20⟩ := by
  have h0 : pyFloatParse "10".data = some (1, 10, 0, 0) := by decide
  have h1 : pyFloatParse "4".data = some (1, 4, 0, 0) := by decide
  have h2 : pyFloatParse "80".data = some (1, 80, 0, 0) := by decide
  simp [shapeRow, floatOrZero, pyFloat, pyFloatL, h0, h1, h2]
  norm_num [decValQ, truncQ, Int.tdiv, pyRound1, roundHalfEven]
example : shapeRow ⟨["/p", "T"], ["1", "0", "42.0"]⟩ = some ⟨"/p", "T", 1, 0, 42⟩ := by
  have h0 : pyFloatParse "1".data = some (1, 1, 0, 0) := by decide
  have h1 : pyFloatParse "0".data = some (1, 0, 0, 0) := by decide
  have h2 : pyFloatParse "42.0".data = some (1, 420, 1, 0) := by decide
  simp [shapeRow, floatOrZero, pyFloat, pyFloatL, h0, h1, h2]
  norm_num [decValQ, truncQ, Int.tdiv, pyRound1, roundHalfEven]
example : shapeRow ⟨["/p", "T"], ["abc", "1", "5"]⟩ = none := by
  have h0 : pyFloatParse "abc".data = none := by decide
  simp [shapeRow, floatOrZero, pyFloat, pyFloatL, h0]

-- Site totals (fetch_site_totals_cached) --------------------------------------

/-- The single aggregate record of the totals report. -/
structure SiteTotals where
  sessions : ℤ
  totalUsers : ℤ
  screenPageViews : ℤ
  deriving Repr, DecidableEq

/-- The response handling of `fetch_site_totals_cached` (lines 206-212):
`row = resp.rows[0].metric_values if resp.rows else []`, then each field is
`int(row[i].value) if row else 0`, collected into a one-record table. -/
def shapeSiteTotals (rows : List ReportRow) : Option (List SiteTotals) :=
  let row := match rows with
    | [] => []
    | r :: _ => r.metricValues
  if row = [] then some [⟨0, 0, 0⟩]
  else do
    let s0 ← row.get? 0
    let v0 ← pyInt s0
    let s1 ← row.get? 1
    let v1 ← pyInt s1
    let s2 ← row.get? 2
    let v2 ← pyInt s2
    some [⟨v0, v1, v2⟩]

example : shapeSiteTotals [] = some [⟨0, 0, 0⟩] := by rfl
example : shapeSiteTotals [⟨[], ["3", "2", "9"]⟩] = some [⟨3, 2, 9⟩] := by decide

-- GA4 request objects (the protobuf fields used by the source) ---------------

inductive MatchType where
  | EXACT
  | BEGINS_WITH
  | ENDS_WITH
  | CONTAINS
  | FULL_REGEXP
  | PARTIAL_REGEXP
  deriving Repr, DecidableEq

structure StringFilter where
  value : String
  matchType : MatchType
  caseSensitive : Bool
  deriving Repr, DecidableEq

/-- `Filter(field_name=..., string_filter=...)` as used by the source. -/
structure GFilter where
  fieldName : String
  stringFilter : StringFilter
  deriving Repr, DecidableEq

/-- `FilterExpression`: either a leaf filter or an OR group
(`FilterExpressionList`). -/
inductive FilterExpression where
  | filt : GFilter → FilterExpression
  | orGroup : List FilterExpression → FilterExpression
  deriving Repr

structure Dimension where
  name : String
  deriving Repr, DecidableEq

structure Metric where
  name : String
  deriving Repr, DecidableEq

structure DateRange where
  startDate : String
  endDate : String
  deriving Repr, DecidableEq

structure OrderByMetric where
  metricName : String
  deriving Repr, DecidableEq

structure OrderBy where
  metric : OrderByMetric
  desc : Bool
  deriving Repr, DecidableEq

structure RunReportRequest where
  property : String
  dimensions : List Dimension
  metrics : List Metric
  dateRanges : List DateRange
  dimensionFilter : Option FilterExpression
  orderBys : List OrderBy
  limit : ℤ
  deriving Repr

/-- The `RunReportRequest` built by `fetch_by_paths_cached` (lines 94-121):
one case-insensitive BEGINS_WITH filter on `pagePath` per input path, OR-ed
together, dimensions `[pagePath, pageTitle]`, metrics
`[screenPageViews, activeUsers, userEngagementDuration]`, no ordering,
limit 100000. -/
def fetch_by_paths_request (propertyId : String) (paths : List String)
    (startDate endDate : String) : RunReportRequest :=
  { property := "properties/" ++ propertyId
    dimensions := [⟨"pagePath"⟩, ⟨"pageTitle"⟩]
    metrics := [⟨"screenPageViews"⟩, ⟨"activeUsers"⟩, ⟨"userEngagementDuration"⟩]
    dateRanges := [⟨startDate, endDate⟩]
    dimensionFilter := some (FilterExpression.orGroup (paths.map fun p =>
      FilterExpression.filt ⟨"pagePath", ⟨p, MatchType.BEGINS_WITH, false⟩⟩))
    orderBys := []
    limit := 100000 }

/-- Modelled from the spec: the `FilterPredicate` data model of section 3 and
the design note of section 9 — a tagged tree with `Leaf(field, prefix-value,
case_insensitive)` testing "field begins with prefix-value" and `Or(children)`. -/
inductive FilterPredicate where
  | Leaf (field : String) (value : String) (caseInsensitive : Bool)
  | Or (children : List FilterPredicate)

/-- Translation of the spec's predicate tree into the API filter object:
a begins-with leaf becomes a BEGINS_WITH string filter whose
`case_sensitive` flag is the negation of `caseInsensitive`. -/
def FilterPredicate.toExpr : FilterPredicate → FilterExpression
  | .Leaf f v ci => .filt ⟨f, ⟨v, MatchType.BEGINS_WITH, !ci⟩⟩
  | .Or cs => .orGroup (cs.attach.map fun c => c.1.toExpr)
termination_by t => sizeOf t
decreasing_by
  have := List.sizeOf_lt_of_mem c.2
  simp only [FilterPredicate.Or.sizeOf_spec]
  omega

/-- Modelled from the spec: the path-filtered report shape of section 4.2 —
dimensions `[path, title]`, metrics `[views, users, total engagement
duration]`, filter = OR of case-insensitive "path begins with P" for each
path P, no ordering, limit 100000. -/
def specPathsRequest (propertyId : String) (paths : List String)
    (startDate endDate : String) : RunReportRequest :=
  { property := "properties/" ++ propertyId
    dimensions := [⟨"pagePath"⟩, ⟨"pageTitle"⟩]
    metrics := [⟨"screenPageViews"⟩, ⟨"activeUsers"⟩, ⟨"userEngagementDuration"⟩]
    dateRanges := [⟨startDate, endDate⟩]
    dimensionFilter := some ((FilterPredicate.Or (paths.map fun p =>
      FilterPredicate.Leaf "pagePath" p true)).toExpr)
    orderBys := []
    limit := 100000 }

-- Calendar dates and the validated action --------------------------------------

/-- A calendar date, ordered lexicographically. -/
structure GDate where
  year : ℕ
  month : ℕ
  day : ℕ
  deriving Repr, DecidableEq

/-- `a` is strictly after `b`. -/
def GDate.after (a b : GDate) : Bool :=
  decide (b.year < a.year ∨ (b.year = a.year ∧ b.month < a.month) ∨
    (b.year = a.year ∧ b.month = a.month ∧ b.day < a.day))

/-- Zero-padded two-digit field. -/
def pad2 (n : ℕ) : String :=
  if n < 10 then "0" ++ toString n else toString n

/-- ISO `YYYY-MM-DD` rendering. -/
def GDate.toIso (d : GDate) : String :=
  toString d.year ++ "-" ++ pad2 d.month ++ "-" ++ pad2 d.day

/-- Modelled from the spec: the URL-analytics action (sections 4.2 and 7 —
the tab handlers are not part of the sources here).  It validates before any
external call: empty property id, invalid date range (start after end), and
empty normalized path list each abort with a `ValidationError`; only then is
the request built, the external fetch performed, and the response shaped.
Paths that normalize to the empty string are skipped (section 4.1), and a
normalizer failure is surfaced as an error. -/
def runPathsAction (propertyId : String) (rawPaths : List String)
    (dateFrom dateTo : GDate) (fetch : RunReportRequest → List ReportRow) :
    Except String (List DisplayRecord) :=
  if (⟨stripL propertyId.data⟩ : String) = "" then
    Except.error "ValidationError: property id is empty"
  else if dateFrom.after dateTo then
    Except.error "ValidationError: start date is after end date"
  else
    let norms := rawPaths.map normalize_input
    if norms.contains none then
      Except.error "invalid URL input"
    else
      let paths := (norms.filterMap id).filter (fun p => p ≠ "")
      if paths = [] then
        Except.error "ValidationError: no valid paths"
      else
        match shapeRows (fetch (fetch_by_paths_request propertyId paths
            dateFrom.toIso dateTo.toIso)) with
        | some recs => Except.ok recs
        | none => Except.error "metric parse failure"

-- The TTL cache (st.cache_data) ------------------------------------------------

/-- Modelled from the spec: the cache of section 4.4 (`st.cache_data(ttl=300)`
is Streamlit library code, not part of the sources here).  A cache is a list
of entries `(key, value, creation timestamp)`; the key is the full tuple of
fetch parameters. -/
def CacheState (κ ν : Type) : Type :=
  List (κ × ν × ℕ)

/-- Look up the entry for a key. -/
def cacheFind {κ ν : Type} [DecidableEq κ] (st : CacheState κ ν) (k : κ) :
    Option (ν × ℕ) :=
  match st.find? (fun e => e.1 = k) with
  | some e => some (e.2.1, e.2.2)
  | none => none

/-- Modelled from the spec: `get_or_fetch(key, ttl, fetch_fn)` — a hit whose
age is below the TTL returns the stored value without invoking `fetch_fn`;
a miss or an expired entry invokes `fetch_fn`, stores the result with a fresh
timestamp (replacing the old entry), and returns it.  The boolean of the
result records whether `fetch_fn` was invoked. -/
def getOrFetch {κ ν : Type} [DecidableEq κ] (ttl now : ℕ) (k : κ)
    (fetchFn : Unit → ν) (st : CacheState κ ν) : ν × CacheState κ ν × Bool :=
  match cacheFind st k with
  | some (v, ts) =>
    if now - ts < ttl then (v, st, false)
    else
      let v2 := fetchFn ()
      (v2, (k, v2, now) :: st.filter (fun e => !(decide (e.1 = k))), true)
  | none =>
    let v2 := fetchFn ()
    (v2, (k, v2, now) :: st.filter (fun e => !(decide (e.1 = k))), true)

-- Lemmas: the parsed path contains no query or fragment characters -----------

theorem mem_takeWhileL {p : Char → Bool} {c : Char} :
    ∀ {l : List Char}, c ∈ l.takeWhile p → p c = true ∧ c ∈ l := by
  intro l h
  induction l with
  | nil => simp [List.takeWhile] at h
  | cons a t ih =>
    rw [List.takeWhile] at h
    by_cases hp : p a
    · simp only [hp, if_true, List.mem_cons] at h
      rcases h with h | h
      · subst h; exact ⟨hp, by simp⟩
      · exact ⟨(ih h).1, List.mem_cons_of_mem _ (ih h).2⟩
    · simp [hp] at h

theorem urlsplitParts_path_clean (u : List Char) :
    '?' ∉ (urlsplitParts u).path ∧ '#' ∉ (urlsplitParts u).path := by
  constructor
  · intro hmem
    have h1 := (mem_takeWhileL hmem).1
    simp at h1
  · intro hmem
    have h2 := (mem_takeWhileL (mem_takeWhileL hmem).2).1
    simp at h2

theorem urlsplitL_eq (u : List Char) {r : SplitResult} (h : urlsplitL u = some r) :
    r = urlsplitParts u := by
  unfold urlsplitL at h
  split at h
  · exact absurd h (by simp)
  · exact (Option.some.inj h).symm

theorem mem_splitparams {c : Char} {p : List Char}
    (h : c ∈ (splitparamsL p).1) : c ∈ p := by
  unfold splitparamsL at h
  split at h
  · exact List.mem_of_mem_take h
  · exact h

theorem urlparseL_path_clean {u : List Char} {pr : ParseResult}
    (h : urlparseL u = some pr) : '?' ∉ pr.path ∧ '#' ∉ pr.path := by
  unfold urlparseL at h
  rcases Option.map_eq_some'.mp h with ⟨r, hr, hpr⟩
  have hre := urlsplitL_eq u hr
  subst hre
  subst hpr
  constructor
  · intro hmem
    exact (urlsplitParts_path_clean u).1 (mem_splitparams hmem)
  · intro hmem
    exact (urlsplitParts_path_clean u).2 (mem_splitparams hmem)

-- Lemmas about normalize_input ------------------------------------------------

theorem rstr_stripL (l : List Char) : rstr pyIsSpace (stripL l) = stripL l := by
  unfold stripL
  rw [rstr_idem]

theorem dropWhile_stripL (l : List Char) :
    (stripL l).dropWhile pyIsSpace = stripL l := by
  have h := stripL_idem l
  unfold stripL at h
  -- from idempotence: rstr (dropWhile (stripL l)) = stripL l; extract directly
  apply dropWhile_noop_of_head
  intro c hc
  cases hl : l.dropWhile pyIsSpace with
  | nil =>
    rw [show stripL l = rstr pyIsSpace (l.dropWhile pyIsSpace) from rfl, hl] at hc
    simp [rstr] at hc
  | cons a t =>
    rw [show stripL l = rstr pyIsSpace (l.dropWhile pyIsSpace) from rfl, hl,
      rstr_cons] at hc
    by_cases hsplit : pyIsSpace a = true ∧ rstr pyIsSpace t = []
    · rw [if_pos hsplit] at hc
      simp at hc
    · rw [if_neg hsplit] at hc
      simp only [List.head?_cons, Option.some.injEq] at hc
      subst hc
      apply head_dropWhileL (p := pyIsSpace) (l := l)
      rw [hl]; rfl

/-- Prepending `'/'` to an already-cleaned line leaves it cleaned. -/
theorem cleanLineL_slash (raw : List Char) :
    cleanLineL ('/' :: cleanLineL raw) = '/' :: cleanLineL raw := by
  have h1 : (cleanLineL raw).filter (fun c => !(isInvisible c)) = cleanLineL raw :=
    filter_stripL_filter _ _
  have h3 : rstr pyIsSpace (cleanLineL raw) = cleanLineL raw := rstr_stripL _
  generalize cleanLineL raw = r at h1 h3 ⊢
  unfold cleanLineL
  rw [List.filter_cons, if_pos (by decide), h1]
  unfold stripL
  rw [List.dropWhile_cons, if_neg (by decide), rstr_cons_of_not pyIsSpace (by decide), h3]

theorem hasPfx_slash_cons (s : List Char) : hasPfx ['/'] ('/' :: s) = true := by
  simp [hasPfx]

theorem hasPfx_http_slash (s : List Char) :
    hasPfx ['h', 't', 't', 'p'] ('/' :: s) = false := by
  simp [hasPfx]

/-- Branch analysis of `normalizeCore`: the output is empty, starts with
`'/'`, or (in the URL branch) is a parsed path free of `'?'` and `'#'`. -/
theorem normalizeCore_shape {s l : List Char} (h : normalizeCore s = some l) :
    l = [] ∨ hasPfx ['/'] l = true ∨
      (hasPfx ['h', 't', 't', 'p'] s = true ∧ '?' ∉ l ∧ '#' ∉ l) := by
  unfold normalizeCore at h
  split at h
  · exact Or.inl (Option.some.inj h).symm
  · split at h
    · rename_i hhttp
      rcases Option.bind_eq_some.mp h with ⟨s2, _, hmap⟩
      rcases Option.map_eq_some'.mp hmap with ⟨p, hp, hl⟩
      by_cases hpe : p.path = []
      · rw [if_pos hpe] at hl
        subst hl
        exact Or.inr (Or.inl (by simp [hasPfx]))
      · rw [if_neg hpe] at hl
        subst hl
        exact Or.inr (Or.inr ⟨hhttp, urlparseL_path_clean hp⟩)
    · split at h
      · rename_i hslash
        exact Or.inr (Or.inl ((Option.some.inj h) ▸ hslash))
      · exact Or.inr (Or.inl ((Option.some.inj h) ▸ hasPfx_slash_cons s))

/-- In the URL branch the output of `normalizeCore` never contains `'?'` or
`'#'`. -/
theorem normalizeCore_http_clean {s l : List Char}
    (ht : hasPfx ['h', 't', 't', 'p'] s = true) (h : normalizeCore s = some l) :
    '?' ∉ l ∧ '#' ∉ l := by
  have hne : s ≠ [] := by
    intro he
    subst he
    simp [hasPfx] at ht
  unfold normalizeCore at h
  rw [if_neg hne, if_pos ht] at h
  rcases Option.bind_eq_some.mp h with ⟨s2, _, hmap⟩
  rcases Option.map_eq_some'.mp hmap with ⟨p, hp, hl⟩
  by_cases hpe : p.path = []
  · rw [if_pos hpe] at hl
    subst hl
    exact ⟨by decide, by decide⟩
  · rw [if_neg hpe] at hl
    subst hl
    exact urlparseL_path_clean hp

/-- `normalizeCore` is the identity (wrapped in `some`) on nonempty cleaned
lines that start with neither `http` nor `'/'` only after prepending `'/'`;
on cleaned lines it never needs a second cleaning.  Together: renormalizing
the output of the non-URL branches changes nothing. -/
theorem normalizeInputL_idem_of_bare {raw : List Char}
    (h : hasPfx ['h', 't', 't', 'p'] (cleanLineL raw) = false) :
    (normalizeInputL raw).bind normalizeInputL = normalizeInputL raw := by
  show (normalizeCore (cleanLineL raw)).bind normalizeInputL = normalizeCore (cleanLineL raw)
  unfold normalizeCore
  split
  · show (some []).bind normalizeInputL = some []
    show normalizeInputL [] = some []
    rfl
  · split
    · rename_i hhttp
      exact absurd hhttp (by simp [h])
    · split
      · rename_i hne hhttp hslash
        show normalizeInputL (cleanLineL raw) = some (cleanLineL raw)
        show normalizeCore (cleanLineL (cleanLineL raw)) = _
        rw [cleanLineL_idem]
        unfold normalizeCore
        rw [if_neg hne, if_neg hhttp, if_pos hslash]
      · rename_i hne hhttp hslash
        show normalizeInputL ('/' :: cleanLineL raw) = some ('/' :: cleanLineL raw)
        show normalizeCore (cleanLineL ('/' :: cleanLineL raw)) = _
        rw [cleanLineL_slash]
        unfold normalizeCore
        rw [if_neg (by simp), if_neg (by simp [hasPfx_http_slash]),
          if_pos (by simp [hasPfx_slash_cons])]

-- ============================================================================
-- Claim theorems
-- ============================================================================

/-- C1 counterexample: a bare-path input keeps its `utm_` query parameter and
fragment verbatim, so the output of `normalize_input` is neither free of
tracking parameters nor free of fragments. -/
theorem normalize_input_keeps_utm_on_bare_path :
    normalize_input "/a?utm_source=1#f" = some "/a?utm_source=1#f" ∧
    occursSub ['u', 't', 'm', '_'] "/a?utm_source=1#f".data = true ∧
    '#' ∈ "/a?utm_source=1#f".data := by
  refine ⟨by decide, by decide, by decide⟩

/-- C1 (amended): for every raw input, the result of `normalize_input` is
either empty, or a string starting with `'/'`, or — when the cleaned input
starts with `http`, the only case in which tracking parameters and fragments
are stripped — a parsed path containing no `'?'` and no `'#'` (inputs not
starting with `http` are kept verbatim, including any query or fragment
text). -/
theorem normalize_input_shape (s r : String) (h : normalize_input s = some r) :
    r = "" ∨ hasPfx ['/'] r.data = true ∨
      (hasPfx ['h', 't', 't', 'p'] (clean_line s).data = true ∧
        '?' ∉ r.data ∧ '#' ∉ r.data) := by
  rcases Option.map_eq_some'.mp h with ⟨l, hl, hr⟩
  subst hr
  rcases normalizeCore_shape (s := cleanLineL s.data) (l := l) hl with h1 | h2 | h3
  · left
    rw [h1]
  · right; left
    exact h2
  · right; right
    exact h3

theorem normalize_input_shape_witness :
    ("/abc" : String) = "" ∨ hasPfx ['/'] ("/abc" : String).data = true ∨
      (hasPfx ['h', 't', 't', 'p'] (clean_line "/abc").data = true ∧
        '?' ∉ ("/abc" : String).data ∧ '#' ∉ ("/abc" : String).data) :=
  normalize_input_shape "/abc" "/abc" (by decide)

/-- C7: for every URL-shaped input (the code's URL test: the cleaned line
starts with `http`) — in particular every such input containing `utm_` query
parameters in any letter case — the normalized output contains no `'?'` and
no `'#'` at all: its query component is empty, hence omits every `utm_`
parameter. -/
theorem normalize_input_strips_query_on_urls (s r : String)
    (h1 : hasPfx ['h', 't', 't', 'p'] (clean_line s).data = true)
    (h : normalize_input s = some r) :
    '?' ∉ r.data ∧ '#' ∉ r.data := by
  rcases Option.map_eq_some'.mp h with ⟨l, hl, hr⟩
  subst hr
  exact normalizeCore_http_clean h1 hl

theorem normalize_input_strips_query_on_urls_witness :
    '?' ∉ ("/B" : String).data ∧ '#' ∉ ("/B" : String).data :=
  normalize_input_strips_query_on_urls "http://a/B?UTM_source=1" "/B"
    (by decide) (by decide)

/-- C9 counterexample: `normalize_input` is not idempotent.  On the input
`"http: x"` the URL branch extracts the path `" x"`; normalizing `" x"`
again strips the space and yields `"/x"`. -/
theorem normalize_input_not_idempotent :
    (normalize_input "http: x").bind normalize_input ≠ normalize_input "http: x" := by
  decide

/-- C9 (amended): `normalize_input` is idempotent on every input whose
cleaned line does not start with `http` (the non-URL branches); the URL
branch can produce paths with leading or trailing whitespace or without a
leading `'/'`, which a second normalization changes. -/
theorem normalize_input_idem_on_bare (s : String)
    (h : hasPfx ['h', 't', 't', 'p'] (clean_line s).data = false) :
    (normalize_input s).bind normalize_input = normalize_input s := by
  have hl : (normalizeInputL s.data).bind normalizeInputL = normalizeInputL s.data :=
    normalizeInputL_idem_of_bare h
  unfold normalize_input
  cases hx : normalizeInputL s.data with
  | none => simp
  | some l =>
    rw [hx] at hl
    simp only [Option.some_bind] at hl
    simp only [Option.map_some', Option.some_bind]
    rw [hl]
    rfl

theorem normalize_input_idem_on_bare_witness :
    (normalize_input "faq").bind normalize_input = normalize_input "faq" :=
  normalize_input_idem_on_bare "faq" (by decide)

/-- C8: an empty row set shapes to the empty sequence of display records,
not an error. -/
theorem shapeRows_empty : shapeRows [] = some [] := rfl

/-- C10: with zero API rows, the totals fetch returns a single record whose
`sessions`, `totalUsers` and `screenPageViews` are all 0 — not an empty
sequence and not an error. -/
theorem site_totals_empty_rows : shapeSiteTotals [] = some [⟨0, 0, 0⟩] := rfl

/-- C4 counterexample: a non-numeric metric value is not treated as zero —
the shaper raises (`float("abc")` is a `ValueError`), so the row shapes to
`none` rather than to a record with a zero in that slot. -/
theorem shapeRow_raises_on_nonnumeric :
    shapeRow ⟨["/p", "T"], ["abc", "1", "5"]⟩ = none := by
  have h0 : pyFloatParse "abc".data = none := by decide
  simp [shapeRow, floatOrZero, pyFloat, pyFloatL, h0]

/-- C4 (amended): metric values are parsed positionally; an empty (falsy)
metric value is replaced by zero and never raises, while a missing metric
value makes the shaper fail (`IndexError`) instead of being zeroed. -/
theorem shapeRow_empty_and_missing (d1 d2 : String) :
    shapeRow ⟨[d1, d2], ["", "", ""]⟩ = some ⟨d1, d2, 0, 0, 0⟩ ∧
    shapeRow ⟨["/p", "T"], ["1", "2"]⟩ = none := by
  constructor
  · simp [shapeRow, floatOrZero]
    norm_num [truncQ, Int.tdiv, pyRound1, roundHalfEven]
  · have h0 : pyFloatParse "1".data = some (1, 1, 0, 0) := by decide
    have h1 : pyFloatParse "2".data = some (1, 2, 0, 0) := by decide
    simp [shapeRow, floatOrZero, pyFloat, pyFloatL, h0, h1]

/-- Modelled from the spec: the derived-field formula of section 4.3,
`average-engagement-per-user = round(engagement_duration_total /
max(unique_users, 1), 1 decimal place)`. -/
def specAvgEngagement (eng : ℚ) (users : ℤ) : ℚ :=
  pyRound1 (eng / ((max users 1 : ℤ) : ℚ))

/-- C2: every shaped row's average-engagement field equals the spec formula
`round(eng / max(users, 1), 1)` applied to the parsed engagement total and the
record's unique-user count; and the spec's concrete instance — a row with
0 unique users and engagement 42.0 — shapes (without a division error) to a
record whose average-engagement field is 42.0. -/
theorem avg_engagement_formula :
    (∀ (r : ReportRow) (rec : DisplayRecord) (eng : ℚ),
        shapeRow r = some rec →
        (r.metricValues.get? 2).bind floatOrZero = some eng →
        rec.avgEngagementTime = specAvgEngagement eng rec.uniqueUsers) ∧
    shapeRow ⟨["/p", "T"], ["1", "0", "42.0"]⟩ = some ⟨"/p", "T", 1, 0, 42⟩ := by
  constructor
  · intro r rec eng h h2
    simp only [shapeRow, Option.bind_eq_some] at h
    rcases h with ⟨m0, hm0, v, hv, m1, hm1, u, hu, m2, hm2, e, he, d0, hd0, d1, hd1, hrec⟩
    rw [hm2] at h2
    simp only [Option.some_bind, he, Option.some.injEq] at h2
    subst h2
    rcases Option.some.inj hrec with rfl
    rfl
  · have h0 : pyFloatParse "1".data = some (1, 1, 0, 0) := by decide
    have h1 : pyFloatParse "0".data = some (1, 0, 0, 0) := by decide
    have h2 : pyFloatParse "42.0".data = some (1, 420, 1, 0) := by decide
    simp [shapeRow, floatOrZero, pyFloat, pyFloatL, h0, h1, h2]
    norm_num [decValQ, truncQ, Int.tdiv, pyRound1, roundHalfEven]

theorem avg_engagement_formula_witness :
    (⟨"/p", "T", 1, 0, 42⟩ : DisplayRecord).avgEngagementTime =
      specAvgEngagement 42 ((⟨"/p", "T", 1, 0, 42⟩ : DisplayRecord).uniqueUsers) :=
  avg_engagement_formula.1 ⟨["/p", "T"], ["1", "0", "42.0"]⟩ ⟨"/p", "T", 1, 0, 42⟩ 42
    avg_engagement_formula.2
    (by
      have h2 : pyFloatParse "42.0".data = some (1, 420, 1, 0) := by decide
      simp [floatOrZero, pyFloat, pyFloatL, h2]
      norm_num [decValQ])

/-- C3: the path-filtered report request has dimensions
`[pagePath, pageTitle]`, metrics
`[screenPageViews, activeUsers, userEngagementDuration]`, a dimension filter
that is the OR of one case-insensitive begins-with predicate on `pagePath`
per input path (the spec's predicate tree translated to the API schema), no
ordering, and limit 100000. -/
theorem paths_request_matches_spec (propertyId : String) (paths : List String)
    (startDate endDate : String) :
    fetch_by_paths_request propertyId paths startDate endDate =
      specPathsRequest propertyId paths startDate endDate ∧
    (fetch_by_paths_request propertyId paths startDate endDate).dimensions =
      [⟨"pagePath"⟩, ⟨"pageTitle"⟩] ∧
    (fetch_by_paths_request propertyId paths startDate endDate).metrics =
      [⟨"screenPageViews"⟩, ⟨"activeUsers"⟩, ⟨"userEngagementDuration"⟩] ∧
    (fetch_by_paths_request propertyId paths startDate endDate).orderBys = [] ∧
    (fetch_by_paths_request propertyId paths startDate endDate).limit = 100000 := by
  refine ⟨?_, rfl, rfl, rfl, rfl⟩
  unfold fetch_by_paths_request specPathsRequest
  simp only [FilterPredicate.toExpr, List.attach_map_val, List.map_map]
  simp [Function.comp, FilterPredicate.toExpr]

/-- C5 (spec-modelled): an empty property identifier or a start date after
the end date is detected before any external call — the action returns a
`ValidationError` and its result does not depend on the fetch function (no
fetch is attempted). -/
theorem validation_blocks_fetch (propertyId : String) (rawPaths : List String)
    (dateFrom dateTo : GDate) (f g : RunReportRequest → List ReportRow)
    (h : (⟨stripL propertyId.data⟩ : String) = "" ∨ dateFrom.after dateTo = true) :
    (∃ msg, runPathsAction propertyId rawPaths dateFrom dateTo f = Except.error msg) ∧
    runPathsAction propertyId rawPaths dateFrom dateTo f =
      runPathsAction propertyId rawPaths dateFrom dateTo g := by
  rcases h with h | h
  · have key : ∀ (fn : RunReportRequest → List ReportRow),
        runPathsAction propertyId rawPaths dateFrom dateTo fn =
          Except.error "ValidationError: property id is empty" := by
      intro fn
      unfold runPathsAction
      rw [if_pos h]
    exact ⟨⟨_, key f⟩, (key f).trans (key g).symm⟩
  · by_cases hp : (⟨stripL propertyId.data⟩ : String) = ""
    · have key : ∀ (fn : RunReportRequest → List ReportRow),
          runPathsAction propertyId rawPaths dateFrom dateTo fn =
            Except.error "ValidationError: property id is empty" := by
        intro fn
        unfold runPathsAction
        rw [if_pos hp]
      exact ⟨⟨_, key f⟩, (key f).trans (key g).symm⟩
    · have key : ∀ (fn : RunReportRequest → List ReportRow),
          runPathsAction propertyId rawPaths dateFrom dateTo fn =
            Except.error "ValidationError: start date is after end date" := by
        intro fn
        unfold runPathsAction
        rw [if_neg hp, if_pos h]
      exact ⟨⟨_, key f⟩, (key f).trans (key g).symm⟩

theorem validation_blocks_fetch_witness :
    (∃ msg, runPathsAction "" ["/a"] ⟨2024, 2, 1⟩ ⟨2024, 1, 1⟩ (fun _ => []) =
      Except.error msg) ∧
    runPathsAction "" ["/a"] ⟨2024, 2, 1⟩ ⟨2024, 1, 1⟩ (fun _ => []) =
      runPathsAction "" ["/a"] ⟨2024, 2, 1⟩ ⟨2024, 1, 1⟩ (fun _ => [⟨[], []⟩]) :=
  validation_blocks_fetch "" ["/a"] ⟨2024, 2, 1⟩ ⟨2024, 1, 1⟩ _ _ (Or.inl (by decide))

/-- C6 (spec-modelled): starting from an empty cache, a call at `t1` invokes
the underlying fetch; a second call with the same key within the 300-second
TTL window does not invoke it (so the two calls invoke it exactly once); and
a call with the same key after TTL expiry invokes it again. -/
theorem cache_ttl_single_fetch {κ ν : Type} [DecidableEq κ] (k : κ)
    (f : Unit → ν) (t1 t2 t3 : ℕ)
    (h12 : t1 ≤ t2) (hwin : t2 - t1 < 300) (hexp : 300 ≤ t3 - t1) :
    ((getOrFetch 300 t1 k f ([] : CacheState κ ν)).2.2 = true) ∧
    ((getOrFetch 300 t2 k f (getOrFetch 300 t1 k f ([] : CacheState κ ν)).2.1).2.2
      = false) ∧
    ((getOrFetch 300 t3 k f
        (getOrFetch 300 t2 k f (getOrFetch 300 t1 k f ([] : CacheState κ ν)).2.1).2.1).2.2
      = true) := by
  have hne : ¬ (t3 - t1 < 300) := by omega
  have h1 : getOrFetch 300 t1 k f ([] : CacheState κ ν) = (f (), [(k, f (), t1)], true) := by
    simp [getOrFetch, cacheFind, List.find?]
  have h2 : getOrFetch 300 t2 k f [(k, f (), t1)] = (f (), [(k, f (), t1)], false) := by
    simp [getOrFetch, cacheFind, List.find?, hwin]
  have h3 : (getOrFetch 300 t3 k f [(k, f (), t1)]).2.2 = true := by
    simp [getOrFetch, cacheFind, List.find?, hne]
  exact ⟨by simp [h1], by simp [h1, h2], by simp [h1, h2, h3]⟩

theorem cache_ttl_single_fetch_witness :
    ((getOrFetch 300 0 (0 : ℕ) (fun _ => (7 : ℕ)) ([] : CacheState ℕ ℕ)).2.2 = true) ∧
    ((getOrFetch 300 100 (0 : ℕ) (fun _ => (7 : ℕ))
        (getOrFetch 300 0 (0 : ℕ) (fun _ => (7 : ℕ)) ([] : CacheState ℕ ℕ)).2.1).2.2
      = false) ∧
    ((getOrFetch 300 300 (0 : ℕ) (fun _ => (7 : ℕ))
        (getOrFetch 300 100 (0 : ℕ) (fun _ => (7 : ℕ))
          (getOrFetch 300 0 (0 : ℕ) (fun _ => (7 : ℕ)) ([] : CacheState ℕ ℕ)).2.1).2.1).2.2
      = true) :=
  cache_ttl_single_fetch 0 (fun _ => 7) 0 100 300 (by decide) (by decide) (by decide)

end GA4
